import Mathlib

/-!
Verification of the PDF-to-images bot (src/bot.py) against its specification.

The development shallowly embeds the three core components of the program:

* the page renderer `render_pages_to_files`, modelled as a fold over the page
  numbers 1..N that produces the PNG file names (Python `page_{p:04d}.png`)
  and the list of progress-callback invocations;
* the archive packer `pack_into_zips`, modelled as a fold over the input file
  list carrying the state of the Python loop (closed zips, current zip name,
  current members, tracked cumulative size), followed by the single-part
  rename step;
* the progress reporter condition of `run_with_progress` (`reporterSends`)
  and the orchestration of `handle_pdf` over the fallible render and pack
  phases (`jobEvents`, `handle_pdf`), producing the list of messages and
  documents sent to the chat.

File sizes are natural numbers; a PNG file is its path together with the size
reported by `stat` (the size function is a parameter of the job model, since
the sizes are produced by the external rasterizer).
-/

/-- Python constant `OUTPUT_DPI = 500`. -/
def OUTPUT_DPI : Nat := 500

/-- Python constant `MAX_ZIP_SIZE = 45 * 1024 * 1024`. -/
def MAX_ZIP_SIZE : Nat := 45 * 1024 * 1024

/-- Python constant `PROGRESS_EVERY = 50`. -/
def PROGRESS_EVERY : Nat := 50

/-- The decimal digit characters, as produced by Python string formatting of
a digit value below ten. -/
def digitChar (d : Nat) : Char :=
  match d with
  | 0 => '0' | 1 => '1' | 2 => '2' | 3 => '3' | 4 => '4'
  | 5 => '5' | 6 => '6' | 7 => '7' | 8 => '8' | _ => '9'

/-- Little-endian decimal digits of `n` (empty for zero), with an explicit
fuel argument so that the recursion is structural; `n` itself is always
sufficient fuel. -/
def revDigits : Nat → Nat → List Nat
  | 0, _ => []
  | fuel + 1, n => if n = 0 then [] else n % 10 :: revDigits fuel (n / 10)

/-- Big-endian decimal digit values of `n`, as produced by Python decimal
formatting: `[0]` for zero, otherwise the usual digits with no leading
zeros. -/
def pyDecimal (n : Nat) : List Nat :=
  if n = 0 then [0] else (revDigits n n).reverse

/-- Zero padding on the left up to width `w`, as in Python `{:04d}` format
(which pads to a minimum width and leaves longer numbers unchanged). -/
def zfill (w : Nat) (ds : List Nat) : List Nat :=
  List.replicate (w - ds.length) 0 ++ ds

/-- The PNG file name of page `p`, Python `f"page_{page_number:04d}.png"`. -/
def pageFileName (p : Nat) : String :=
  "page_" ++ String.mk ((zfill 4 (pyDecimal p)).map digitChar) ++ ".png"

/-- One iteration of the rendering loop of `render_pages_to_files`: append the
PNG file of page `p` and, when `p % PROGRESS_EVERY == 0 or p == total`,
record the progress-callback invocation `(p, total)`. -/
def renderStep (total : Nat) (acc : List String × List (Nat × Nat)) (p : Nat) :
    List String × List (Nat × Nat) :=
  (acc.1 ++ [pageFileName p],
   if p % PROGRESS_EVERY = 0 ∨ p = total then acc.2 ++ [(p, total)] else acc.2)

/-- The 1-based page numbers of an `n`-page document, Python
`enumerate(pdf, start=1)`. -/
def pageNums (n : Nat) : List Nat := (List.range n).map (· + 1)

/-- The rendering loop of `render_pages_to_files` on an `n`-page document:
the produced PNG file names in page order, together with the list of
progress-callback invocations in order. -/
def renderPages (n : Nat) : List String × List (Nat × Nat) :=
  (pageNums n).foldl (renderStep n) ([], [])

/-- `render_pages_to_files` on an `n`-page document: the ordered PNG file
names, or the `ValueError("The PDF file has no pages")` raised when no page
was rendered (the realization of the EmptyDocumentError of the design). -/
def render_pages_to_files (n : Nat) : Except String (List String) :=
  let files := (renderPages n).1
  if files.isEmpty then Except.error "The PDF file has no pages" else Except.ok files

/-- The condition under which the rendering loop invokes the progress
callback at page `p`, returning the passed pair. -/
def progressCond (total p : Nat) : Option (Nat × Nat) :=
  if p % PROGRESS_EVERY = 0 ∨ p = total then some (p, total) else none

/-- A rendered PNG file as seen by the packer: its path and the byte size
reported by `stat`. -/
structure PngFile where
  path : String
  size : Nat
deriving DecidableEq

/-- One produced ZIP archive: its file name, its member files in insertion
order, and the cumulative tracked size at close time. -/
structure ZipPart where
  name : String
  members : List PngFile
  size : Nat
deriving DecidableEq

/-- Cumulative byte size of a list of member files. -/
def sumSize (l : List PngFile) : Nat := (l.map PngFile.size).sum

/-- The zip file name `f"{base_name}_part{part}.zip"`. -/
def partName (base : String) (n : Nat) : String :=
  base ++ "_part" ++ Nat.repr n ++ ".zip"

/-- The loop state of `pack_into_zips`: the already closed zips in order, the
name of the currently open zip, its members so far, and `current_size`. -/
structure PackState where
  closed : List ZipPart
  curName : String
  cur : List PngFile
  curSize : Nat

/-- One iteration of the packing loop: if
`current_size + file_size > max_size and current_size > 0` then
`start_new_zip()` (closing the current zip and opening the next part,
numbered from the count of zips created so far), then the file is written to
the current zip and `current_size` is increased. -/
def packStep (base : String) (maxSize : Nat) (s : PackState) (f : PngFile) : PackState :=
  if maxSize < s.curSize + f.size ∧ 0 < s.curSize then
    { closed := s.closed ++ [⟨s.curName, s.cur, s.curSize⟩],
      curName := partName base (s.closed.length + 2),
      cur := [f],
      curSize := f.size }
  else
    { s with cur := s.cur ++ [f], curSize := s.curSize + f.size }

/-- The state after the initial `start_new_zip()` call: no closed zip, part 1
open and empty. -/
def packInit (base : String) : PackState := ⟨[], partName base 1, [], 0⟩

/-- Closing the final zip: the full list of produced parts in order. -/
def packFinal (s : PackState) : List ZipPart :=
  s.closed ++ [⟨s.curName, s.cur, s.curSize⟩]

/-- The final rename of `pack_into_zips`: when exactly one part was produced,
it is renamed from `base_part1.zip` to `base.zip`; otherwise nothing
changes. -/
def renameSingle (base : String) (zips : List ZipPart) : List ZipPart :=
  match zips with
  | [z] => [⟨base ++ ".zip", z.members, z.size⟩]
  | zs => zs

/-- `pack_into_zips(png_files, output_dir, base_name, max_size)`: the ordered
list of produced ZIP archives. -/
def pack_into_zips (base : String) (maxSize : Nat) (files : List PngFile) : List ZipPart :=
  renameSingle base (packFinal (files.foldl (packStep base maxSize) (packInit base)))

/-- The archive file names as a function of the number of parts: `base.zip`
for a single part, `base_part1.zip` .. `base_partN.zip` otherwise. -/
def zipNames (base : String) (n : Nat) : List String :=
  if n = 1 then [base ++ ".zip"] else (List.range n).map (fun i => partName base (i + 1))

/-- The size discipline the specification asserts of one archive part: the
cumulative member size stays within the bound, or the part is a singleton
holding a file that alone exceeds the bound. -/
def goodPart (maxSize : Nat) (l : List PngFile) : Prop :=
  sumSize l ≤ maxSize ∨ ∃ f, l = [f] ∧ maxSize < f.size

/-- The files held by a packing state, in order: the members of the closed
zips followed by the members of the current zip. -/
def stateFiles (s : PackState) : List PngFile :=
  (s.closed.map ZipPart.members).flatten ++ s.cur

/-- Structural invariant of the packing loop state: the tracked size is the
cumulative member size of the open zip, the open zip is named after the count
of zips created so far, the closed zips are named `base_part1.zip` onwards in
order, their recorded sizes are their cumulative member sizes, and no closed
zip is empty. -/
structure PackInv (base : String) (s : PackState) : Prop where
  size_eq : s.curSize = sumSize s.cur
  name_eq : s.curName = partName base (s.closed.length + 1)
  names_eq : s.closed.map ZipPart.name
    = (List.range s.closed.length).map (fun i => partName base (i + 1))
  sizes_eq : ∀ z ∈ s.closed, z.size = sumSize z.members
  closed_ne : ∀ z ∈ s.closed, z.members ≠ []

/-- Size invariant of the packing loop state, maintained when every input
file has positive size: all members seen so far have positive size, the
tracked size is the cumulative size, and the open and closed zips satisfy the
size discipline. -/
structure PackBoundInv (maxSize : Nat) (s : PackState) : Prop where
  cur_pos : ∀ f ∈ s.cur, 0 < f.size
  size_eq : s.curSize = sumSize s.cur
  cur_good : goodPart maxSize s.cur
  closed_good : ∀ z ∈ s.closed, goodPart maxSize z.members

/-- The emission condition of the progress loop in `run_with_progress`
(`handle_pdf`): a message is sent exactly when `total > 0`,
`current > last_sent`, `current < total`, and
`current - last_sent >= PROGRESS_EVERY or current == total`. -/
def reporterSends (lastSent current total : Nat) : Bool :=
  decide (0 < total) && decide (lastSent < current) && decide (current < total) &&
    (decide (PROGRESS_EVERY ≤ current - lastSent) || decide (current = total))

/-- An observable interaction of the job with the chat: a text message or a
document upload with a caption. -/
inductive BotEvent where
  | text : String → BotEvent
  | document : String → String → BotEvent
deriving DecidableEq

/-- The acknowledgement message sent by `handle_pdf` before processing. -/
def introText : String := "PDF received. Converting pages to PNG images..."

/-- The failure notice sent when rendering raises. -/
def renderFailText : String := "I could not process this PDF. Please try another file."

/-- The failure notice sent when packing raises. -/
def packFailText : String := "I could not create the archive. Please try another file."

/-- A progress message of the reporter loop,
Python `f"Converting... {current}/{total} pages done."`. -/
def progressText (c t : Nat) : String :=
  "Converting... " ++ (Nat.repr c ++ "/" ++ Nat.repr t ++ " pages done.")

/-- The caption used when a single archive is delivered. -/
def singleCaption (pages : Nat) : String :=
  "Done. Converted " ++ Nat.repr pages ++ " page(s) to PNG (" ++ Nat.repr OUTPUT_DPI ++
    " DPI) and packed them into this ZIP."

/-- The caption used for part `i` of `n` when several archives are
delivered. -/
def partCaption (i n pages : Nat) : String :=
  "Part " ++ Nat.repr i ++ " of " ++ Nat.repr n ++ ". Total: " ++ Nat.repr pages ++
    " page(s) at " ++ Nat.repr OUTPUT_DPI ++ " DPI."

/-- The delivery loop of `handle_pdf`: each archive is uploaded in order with
the single-archive or part-of-n caption. -/
def deliverZips (pages : Nat) (zips : List ZipPart) : List BotEvent :=
  zips.enum.map (fun iz =>
    BotEvent.document iz.2.name
      (if zips.length = 1 then singleCaption pages
       else partCaption (iz.1 + 1) zips.length pages))

/-- The interactions of `handle_pdf` after the PDF was accepted, as a
function of the outcome of the two fallible phases: the acknowledgement and
the progress messages are followed either by exactly one failure notice (the
phase that raised is caught by the surrounding try/except, which replies and
returns) or by the archive uploads. -/
def jobEvents (progress : List (Nat × Nat)) (rr : Except String (List PngFile))
    (pr : Except String (List ZipPart)) : List BotEvent :=
  let pre := BotEvent.text introText ::
    progress.map (fun ct => BotEvent.text (progressText ct.1 ct.2))
  match rr with
  | Except.error _ => pre ++ [BotEvent.text renderFailText]
  | Except.ok pngs =>
    match pr with
    | Except.error _ => pre ++ [BotEvent.text packFailText]
    | Except.ok zips => pre ++ deliverZips pngs.length zips

/-- Whether an interaction delivers an archive file. -/
def isArchiveEvent : BotEvent → Bool
  | BotEvent.document _ _ => true
  | BotEvent.text _ => false

/-- Whether an interaction is one of the two failure notices. -/
def isFailureNotice : BotEvent → Bool
  | BotEvent.text m => m == renderFailText || m == packFailText
  | BotEvent.document _ _ => false

/-- Whether a phase outcome is a raised error. -/
def failed {α : Type} : Except String α → Bool
  | Except.error _ => true
  | Except.ok _ => false

/-- The composed job `handle_pdf` on an `n`-page document whose rendered PNG
sizes are given by `fileSize` (the sizes are produced by the external
rasterizer and read back with `stat`): render, then pack with
`MAX_ZIP_SIZE`, then deliver; `progress` lists the samples at which the
reporter loop sent a message. -/
def handle_pdf (base : String) (n : Nat) (fileSize : String → Nat)
    (progress : List (Nat × Nat)) : List BotEvent :=
  match render_pages_to_files n with
  | Except.error e => jobEvents progress (Except.error e) (Except.error e)
  | Except.ok names =>
    let pngs := names.map (fun nm => PngFile.mk nm (fileSize nm))
    jobEvents progress (Except.ok pngs) (Except.ok (pack_into_zips base MAX_ZIP_SIZE pngs))

theorem revDigits_congr (n : Nat) :
    ∀ f₁ f₂, n ≤ f₁ → n ≤ f₂ → revDigits f₁ n = revDigits f₂ n := by
  induction n using Nat.strong_induction_on with
  | _ n ih =>
    intro f₁ f₂ h₁ h₂
    rcases n with _ | m
    · cases f₁ <;> cases f₂ <;> simp [revDigits]
    · obtain ⟨g₁, rfl⟩ : ∃ g, f₁ = g + 1 := ⟨f₁ - 1, by omega⟩
      obtain ⟨g₂, rfl⟩ : ∃ g, f₂ = g + 1 := ⟨f₂ - 1, by omega⟩
      simp only [revDigits, if_neg (Nat.succ_ne_zero m)]
      have hlt : (m + 1) / 10 < m + 1 := by omega
      rw [ih ((m + 1) / 10) hlt g₁ g₂ (by omega) (by omega)]

theorem revDigits_self_eq (n : Nat) :
    revDigits n n = if n = 0 then [] else n % 10 :: revDigits (n / 10) (n / 10) := by
  rcases n with _ | m
  · rfl
  · simp only [revDigits, if_neg (Nat.succ_ne_zero m)]
    rw [revDigits_congr ((m + 1) / 10) m ((m + 1) / 10) (by omega) (by omega)]

theorem zfill_pyDecimal (p : Nat) (h : p ≤ 9999) :
    zfill 4 (pyDecimal p) = [p / 1000, p / 100 % 10, p / 10 % 10, p % 10] := by
  rcases Nat.lt_or_ge p 10 with h1 | h1
  · have hp : pyDecimal p = [p] := by
      rcases Nat.eq_zero_or_pos p with rfl | hp
      · rfl
      · unfold pyDecimal
        rw [if_neg (by omega), revDigits_self_eq, if_neg (by omega),
          Nat.mod_eq_of_lt h1, revDigits_self_eq, if_pos (by omega)]
        rfl
    rw [hp]
    simp only [zfill, List.length_cons, List.length_nil]
    have e1 : p / 1000 = 0 := by omega
    have e2 : p / 100 % 10 = 0 := by omega
    have e3 : p / 10 % 10 = 0 := by omega
    have e4 : p % 10 = p := by omega
    rw [e1, e2, e3, e4]
    rfl
  · rcases Nat.lt_or_ge p 100 with h2 | h2
    · have hp : pyDecimal p = [p / 10, p % 10] := by
        unfold pyDecimal
        rw [if_neg (by omega), revDigits_self_eq, if_neg (by omega),
          revDigits_self_eq, if_neg (by omega), revDigits_self_eq, if_pos (by omega)]
        have e : p / 10 % 10 = p / 10 := by omega
        simp [e]
      rw [hp]
      simp only [zfill, List.length_cons, List.length_nil]
      have e1 : p / 1000 = 0 := by omega
      have e2 : p / 100 % 10 = 0 := by omega
      have e3 : p / 10 % 10 = p / 10 := by omega
      rw [e1, e2, e3]
      rfl
    · rcases Nat.lt_or_ge p 1000 with h3 | h3
      · have hp : pyDecimal p = [p / 100, p / 10 % 10, p % 10] := by
          unfold pyDecimal
          rw [if_neg (by omega), revDigits_self_eq, if_neg (by omega),
            revDigits_self_eq, if_neg (by omega), revDigits_self_eq, if_neg (by omega),
            revDigits_self_eq, if_pos (by omega)]
          have ea : p / 10 / 10 = p / 100 := by omega
          have eb : p / 100 % 10 = p / 100 := by omega
          simp [ea, eb]
        rw [hp]
        simp only [zfill, List.length_cons, List.length_nil]
        have e1 : p / 1000 = 0 := by omega
        have e2 : p / 100 % 10 = p / 100 := by omega
        rw [e1, e2]
        rfl
      · have hp : pyDecimal p = [p / 1000, p / 100 % 10, p / 10 % 10, p % 10] := by
          unfold pyDecimal
          rw [if_neg (by omega), revDigits_self_eq, if_neg (by omega),
            revDigits_self_eq, if_neg (by omega), revDigits_self_eq, if_neg (by omega),
            revDigits_self_eq, if_neg (by omega), revDigits_self_eq, if_pos (by omega)]
          have ea : p / 10 / 10 = p / 100 := by omega
          have eb : p / 100 / 10 = p / 1000 := by omega
          have ec : p / 1000 % 10 = p / 1000 := by omega
          simp [ea, eb, ec]
        rw [hp]
        simp only [zfill, List.length_cons, List.length_nil]
        rfl

theorem digitChar_lt_digitChar {a b : Nat} (ha : a < 10) (hb : b < 10) :
    digitChar a < digitChar b ↔ a < b := by
  interval_cases a <;> interval_cases b <;> decide

theorem list_lt_append_left (u : List Char) {a b : List Char} (h : a < b) :
    u ++ a < u ++ b := by
  induction u with
  | nil => exact h
  | cons c cs ih => exact List.Lex.cons ih

theorem list_lt_append_of_length_eq {a b : List Char} (h : a < b)
    (hl : a.length = b.length) (u v : List Char) : a ++ u < b ++ v := by
  induction h with
  | nil => simp at hl
  | cons h ih => exact List.Lex.cons (ih (by simpa using hl))
  | rel h => exact List.Lex.rel h

theorem pageDigits_lt {p q : Nat} (hpq : p < q) (hq : q ≤ 9999) :
    (zfill 4 (pyDecimal p)).map digitChar < (zfill 4 (pyDecimal q)).map digitChar := by
  have hp : p ≤ 9999 := by omega
  rw [zfill_pyDecimal p hp, zfill_pyDecimal q hq]
  simp only [List.map_cons, List.map_nil]
  rcases Nat.lt_trichotomy (p / 1000) (q / 1000) with h1 | h1 | h1
  · exact List.Lex.rel ((digitChar_lt_digitChar (by omega) (by omega)).mpr h1)
  · rw [h1]
    rcases Nat.lt_trichotomy (p / 100 % 10) (q / 100 % 10) with h2 | h2 | h2
    · exact List.Lex.cons
        (List.Lex.rel ((digitChar_lt_digitChar (by omega) (by omega)).mpr h2))
    · rw [h2]
      rcases Nat.lt_trichotomy (p / 10 % 10) (q / 10 % 10) with h3 | h3 | h3
      · exact List.Lex.cons (List.Lex.cons
          (List.Lex.rel ((digitChar_lt_digitChar (by omega) (by omega)).mpr h3)))
      · rw [h3]
        have h4 : p % 10 < q % 10 := by omega
        exact List.Lex.cons (List.Lex.cons (List.Lex.cons
          (List.Lex.rel ((digitChar_lt_digitChar (by omega) (by omega)).mpr h4))))
      · omega
    · omega
  · omega

theorem pageDigits_length (p : Nat) (hp : p ≤ 9999) :
    ((zfill 4 (pyDecimal p)).map digitChar).length = 4 := by
  rw [zfill_pyDecimal p hp]
  rfl

theorem pageFileName_lt {p q : Nat} (hpq : p < q) (hq : q ≤ 9999) :
    pageFileName p < pageFileName q := by
  rw [String.lt_iff_toList_lt]
  show (pageFileName p).data < (pageFileName q).data
  have hp : p ≤ 9999 := by omega
  simp only [pageFileName, String.data_append, List.append_assoc]
  exact list_lt_append_left _ (list_lt_append_of_length_eq (pageDigits_lt hpq hq)
    (by rw [pageDigits_length p hp, pageDigits_length q hq]) _ _)

theorem renderFold (total : Nat) (ps : List Nat) (acc : List String × List (Nat × Nat)) :
    ps.foldl (renderStep total) acc
      = (acc.1 ++ ps.map pageFileName, acc.2 ++ ps.filterMap (progressCond total)) := by
  induction ps generalizing acc with
  | nil => simp
  | cons p ps ih =>
    rw [List.foldl_cons, ih]
    unfold renderStep progressCond
    by_cases hc : p % PROGRESS_EVERY = 0 ∨ p = total
    · rw [if_pos hc]
      simp [List.filterMap_cons, hc]
    · rw [if_neg hc]
      simp [List.filterMap_cons, hc]

theorem renderPages_fst (n : Nat) : (renderPages n).1 = (pageNums n).map pageFileName := by
  rw [renderPages, renderFold]
  simp

theorem renderPages_snd (n : Nat) :
    (renderPages n).2 = (pageNums n).filterMap (progressCond n) := by
  rw [renderPages, renderFold]
  simp

theorem mem_pageNums (n p : Nat) : p ∈ pageNums n ↔ 1 ≤ p ∧ p ≤ n := by
  simp only [pageNums, List.mem_map, List.mem_range]
  constructor
  · rintro ⟨i, hi, rfl⟩
    omega
  · intro h
    exact ⟨p - 1, by omega, by omega⟩

theorem sumSize_nil : sumSize [] = 0 := rfl

theorem sumSize_append (a b : List PngFile) : sumSize (a ++ b) = sumSize a + sumSize b := by
  simp [sumSize]

theorem sumSize_singleton (f : PngFile) : sumSize [f] = f.size := by
  simp [sumSize]

theorem ne_nil_of_sumSize_pos {l : List PngFile} (h : 0 < sumSize l) : l ≠ [] := by
  intro hnil
  rw [hnil] at h
  simp [sumSize] at h

theorem packInv_init (base : String) : PackInv base (packInit base) where
  size_eq := rfl
  name_eq := rfl
  names_eq := rfl
  sizes_eq := by intro z hz; simp [packInit] at hz
  closed_ne := by intro z hz; simp [packInit] at hz

theorem packInv_step (base : String) (maxSize : Nat) (s : PackState) (f : PngFile)
    (h : PackInv base s) : PackInv base (packStep base maxSize s f) := by
  unfold packStep
  split
  case isTrue hc =>
    refine ⟨by simp [sumSize_singleton], ?_, ?_, ?_, ?_⟩
    · simp
    · simp only [List.map_append, List.map_cons, List.map_nil, List.length_append,
        List.length_cons, List.length_nil, h.names_eq, h.name_eq]
      rw [show s.closed.length + (0 + 1) = s.closed.length + 1 from by omega, List.range_succ]
      simp
    · intro z hz
      rcases List.mem_append.mp hz with hz | hz
      · exact h.sizes_eq z hz
      · simp at hz
        rw [hz]
        exact h.size_eq
    · intro z hz
      rcases List.mem_append.mp hz with hz | hz
      · exact h.closed_ne z hz
      · simp at hz
        rw [hz]
        exact ne_nil_of_sumSize_pos (h.size_eq ▸ hc.2)
  case isFalse hc =>
    exact ⟨by rw [sumSize_append, sumSize_singleton, h.size_eq], h.name_eq, h.names_eq,
      h.sizes_eq, h.closed_ne⟩

theorem packInv_foldl (base : String) (maxSize : Nat) (files : List PngFile) (s : PackState)
    (h : PackInv base s) : PackInv base (files.foldl (packStep base maxSize) s) := by
  induction files generalizing s with
  | nil => exact h
  | cons f fs ih => exact ih _ (packInv_step base maxSize s f h)

theorem stateFiles_step (base : String) (maxSize : Nat) (s : PackState) (f : PngFile) :
    stateFiles (packStep base maxSize s f) = stateFiles s ++ [f] := by
  unfold packStep
  split
  · simp [stateFiles, List.map_append, List.flatten_append]
  · simp [stateFiles]

theorem stateFiles_foldl (base : String) (maxSize : Nat) (files : List PngFile) (s : PackState) :
    stateFiles (files.foldl (packStep base maxSize) s) = stateFiles s ++ files := by
  induction files generalizing s with
  | nil => simp
  | cons f fs ih =>
    rw [List.foldl_cons, ih, stateFiles_step, List.append_assoc]
    rfl

theorem packStep_cur_ne (base : String) (maxSize : Nat) (s : PackState) (f : PngFile) :
    (packStep base maxSize s f).cur ≠ [] := by
  unfold packStep
  split <;> simp

theorem foldl_cur_ne (base : String) (maxSize : Nat) (files : List PngFile) (h : files ≠ [])
    (s : PackState) : (files.foldl (packStep base maxSize) s).cur ≠ [] := by
  induction files generalizing s with
  | nil => exact absurd rfl h
  | cons f fs ih =>
    rw [List.foldl_cons]
    rcases fs with _ | ⟨g, gs⟩
    · exact packStep_cur_ne base maxSize s f
    · exact ih (by simp) _

theorem goodPart_singleton (maxSize : Nat) (f : PngFile) : goodPart maxSize [f] := by
  rcases le_or_lt f.size maxSize with hle | hlt
  · exact Or.inl (by rw [sumSize_singleton]; exact hle)
  · exact Or.inr ⟨f, rfl, hlt⟩

theorem packBoundInv_init (maxSize : Nat) (base : String) :
    PackBoundInv maxSize (packInit base) where
  cur_pos := by intro f hf; simp [packInit] at hf
  size_eq := rfl
  cur_good := Or.inl (by simp [packInit, sumSize_nil])
  closed_good := by intro z hz; simp [packInit] at hz

theorem packBoundInv_step (base : String) (maxSize : Nat) (s : PackState) (f : PngFile)
    (hf : 0 < f.size) (h : PackBoundInv maxSize s) :
    PackBoundInv maxSize (packStep base maxSize s f) := by
  unfold packStep
  split
  case isTrue hc =>
    refine ⟨?_, by simp [sumSize_singleton], goodPart_singleton maxSize f, ?_⟩
    · intro g hg
      simp at hg
      rw [hg]
      exact hf
    · intro z hz
      rcases List.mem_append.mp hz with hz | hz
      · exact h.closed_good z hz
      · simp at hz
        rw [hz]
        exact h.cur_good
  case isFalse hc =>
    have hcase : s.curSize + f.size ≤ maxSize ∨ s.curSize = 0 := by omega
    refine ⟨?_, by rw [sumSize_append, sumSize_singleton, h.size_eq], ?_, h.closed_good⟩
    · intro g hg
      rcases List.mem_append.mp hg with hg | hg
      · exact h.cur_pos g hg
      · simp at hg
        rw [hg]
        exact hf
    · rcases hcase with hle | hzero
      · exact Or.inl (by rw [sumSize_append, sumSize_singleton, ← h.size_eq]; exact hle)
      · have hnil : s.cur = [] := by
          rcases hcur : s.cur with _ | ⟨x, xs⟩
          · rfl
          · have hx : 0 < x.size := h.cur_pos x (by rw [hcur]; exact List.mem_cons_self x xs)
            have hcs : 0 < sumSize s.cur := by
              rw [hcur]
              simp [sumSize]
              omega
            have hse : s.curSize = sumSize s.cur := h.size_eq
            omega
        rw [hnil]
        exact goodPart_singleton maxSize f

theorem packBoundInv_foldl (base : String) (maxSize : Nat) (files : List PngFile)
    (hpos : ∀ f ∈ files, 0 < f.size) (s : PackState) (h : PackBoundInv maxSize s) :
    PackBoundInv maxSize (files.foldl (packStep base maxSize) s) := by
  induction files generalizing s with
  | nil => exact h
  | cons f fs ih =>
    exact ih (fun g hg => hpos g (List.mem_cons_of_mem f hg)) _
      (packBoundInv_step base maxSize s f (hpos f (List.mem_cons_self f fs)) h)

theorem renameSingle_members (base : String) (zips : List ZipPart) :
    (renameSingle base zips).map ZipPart.members = zips.map ZipPart.members := by
  rcases zips with _ | ⟨a, _ | ⟨b, t⟩⟩ <;> rfl

theorem renameSingle_length (base : String) (zips : List ZipPart) :
    (renameSingle base zips).length = zips.length := by
  rcases zips with _ | ⟨a, _ | ⟨b, t⟩⟩ <;> rfl

theorem renameSingle_of_ne_one (base : String) (zips : List ZipPart) (h : zips.length ≠ 1) :
    renameSingle base zips = zips := by
  rcases zips with _ | ⟨a, _ | ⟨b, t⟩⟩
  · rfl
  · exact absurd rfl h
  · rfl

theorem packFinal_names (base : String) (s : PackState) (h : PackInv base s) :
    (packFinal s).map ZipPart.name
      = (List.range (packFinal s).length).map (fun i => partName base (i + 1)) := by
  simp only [packFinal, List.map_append, List.map_cons, List.map_nil, h.names_eq, h.name_eq,
    List.length_append, List.length_cons, List.length_nil]
  rw [show s.closed.length + (0 + 1) = s.closed.length + 1 from by omega, List.range_succ]
  simp

theorem length_le_flatten_length {α : Type} (L : List (List α)) (h : ∀ l ∈ L, l ≠ []) :
    L.length ≤ L.flatten.length := by
  induction L with
  | nil => simp
  | cons l ls ih =>
    have h1 : 1 ≤ l.length := List.length_pos.mpr (h l (List.mem_cons_self l ls))
    have h2 := ih (fun x hx => h x (List.mem_cons_of_mem l hx))
    simp only [List.flatten_cons, List.length_append, List.length_cons]
    omega

theorem pack_join (base : String) (maxSize : Nat) (files : List PngFile) :
    ((pack_into_zips base maxSize files).map ZipPart.members).flatten = files := by
  unfold pack_into_zips
  rw [renameSingle_members]
  have h := stateFiles_foldl base maxSize files (packInit base)
  simp only [stateFiles, packInit, List.map_nil, List.flatten_nil, List.nil_append] at h
  simp only [packFinal, List.map_append, List.map_cons, List.map_nil, List.flatten_append,
    List.flatten_cons, List.flatten_nil, List.append_nil]
  exact h

theorem pack_names (base : String) (maxSize : Nat) (files : List PngFile) :
    (pack_into_zips base maxSize files).map ZipPart.name
      = zipNames base (pack_into_zips base maxSize files).length := by
  unfold pack_into_zips
  have hinv := packInv_foldl base maxSize files (packInit base) (packInv_init base)
  set s := files.foldl (packStep base maxSize) (packInit base) with hs
  rcases hcl : s.closed with _ | ⟨c, cs⟩
  · have hone : packFinal s = [⟨s.curName, s.cur, s.curSize⟩] := by
      simp [packFinal, hcl]
    rw [hone]
    simp [renameSingle, zipNames]
  · have hlen : (packFinal s).length = cs.length + 2 := by
      simp [packFinal, hcl]
    rw [renameSingle_of_ne_one base _ (by omega), packFinal_names base s hinv, hlen,
      zipNames, if_neg (by omega)]

theorem pack_parts_good (base : String) (maxSize : Nat) (files : List PngFile)
    (hpos : ∀ f ∈ files, 0 < f.size) :
    ∀ z ∈ pack_into_zips base maxSize files, goodPart maxSize z.members := by
  intro z hz
  have hbi := packBoundInv_foldl base maxSize files hpos (packInit base)
    (packBoundInv_init maxSize base)
  have hm : z.members ∈ (pack_into_zips base maxSize files).map ZipPart.members :=
    List.mem_map_of_mem ZipPart.members hz
  rw [pack_into_zips, renameSingle_members] at hm
  simp only [packFinal, List.map_append, List.map_cons, List.map_nil] at hm
  rcases List.mem_append.mp hm with hm | hm
  · obtain ⟨z', hz', hzz⟩ := List.mem_map.mp hm
    rw [← hzz]
    exact hbi.closed_good z' hz'
  · simp at hm
    rw [hm]
    exact hbi.cur_good

theorem pack_parts_ne (base : String) (maxSize : Nat) (files : List PngFile)
    (h : files ≠ []) : ∀ z ∈ pack_into_zips base maxSize files, z.members ≠ [] := by
  intro z hz
  have hinv := packInv_foldl base maxSize files (packInit base) (packInv_init base)
  have hm : z.members ∈ (pack_into_zips base maxSize files).map ZipPart.members :=
    List.mem_map_of_mem ZipPart.members hz
  rw [pack_into_zips, renameSingle_members] at hm
  simp only [packFinal, List.map_append, List.map_cons, List.map_nil] at hm
  rcases List.mem_append.mp hm with hm | hm
  · obtain ⟨z', hz', hzz⟩ := List.mem_map.mp hm
    rw [← hzz]
    exact hinv.closed_ne z' hz'
  · simp at hm
    rw [hm]
    exact foldl_cur_ne base maxSize files h (packInit base)

theorem converting_ne (s : String) (t : String) (h0 : t.data.head? = some 'I') :
    ("Converting... " ++ s) ≠ t := by
  intro h
  have hd := congrArg (fun x => x.data.head?) h
  simp only [String.data_append] at hd
  simp only [List.cons_append, List.head?_cons, h0] at hd
  cases hd

theorem progress_not_failure (c t : Nat) :
    isFailureNotice (BotEvent.text (progressText c t)) = false := by
  simp only [isFailureNotice, Bool.or_eq_false_iff, beq_eq_false_iff_ne, ne_eq]
  constructor
  · exact converting_ne _ renderFailText rfl
  · exact converting_ne _ packFailText rfl

theorem intro_not_failure : isFailureNotice (BotEvent.text introText) = false := by decide

theorem pre_no_failure (progress : List (Nat × Nat)) :
    (BotEvent.text introText ::
      progress.map (fun ct => BotEvent.text (progressText ct.1 ct.2))).filter isFailureNotice
      = [] := by
  rw [List.filter_eq_nil_iff]
  intro a ha
  rcases List.mem_cons.mp ha with rfl | ha
  · simp [intro_not_failure]
  · obtain ⟨ct, -, rfl⟩ := List.mem_map.mp ha
    simp [progress_not_failure]

theorem pre_no_archive (progress : List (Nat × Nat)) :
    (BotEvent.text introText ::
      progress.map (fun ct => BotEvent.text (progressText ct.1 ct.2))).filter isArchiveEvent
      = [] := by
  rw [List.filter_eq_nil_iff]
  intro a ha
  rcases List.mem_cons.mp ha with rfl | ha
  · simp [isArchiveEvent]
  · obtain ⟨ct, -, rfl⟩ := List.mem_map.mp ha
    simp [isArchiveEvent]

theorem jobEvents_render_error (progress : List (Nat × Nat)) (e : String)
    (pr : Except String (List ZipPart)) :
    (jobEvents progress (Except.error e) pr).filter isArchiveEvent = [] ∧
    ((jobEvents progress (Except.error e) pr).filter isFailureNotice).length = 1 := by
  constructor
  · rw [jobEvents]
    simp only [List.filter_append, pre_no_archive, List.nil_append]
    simp [isArchiveEvent]
  · rw [jobEvents]
    simp only [List.filter_append, pre_no_failure, List.nil_append]
    simp [isFailureNotice]

theorem jobEvents_pack_error (progress : List (Nat × Nat)) (pngs : List PngFile) (e : String) :
    (jobEvents progress (Except.ok pngs) (Except.error e)).filter isArchiveEvent = [] ∧
    ((jobEvents progress (Except.ok pngs) (Except.error e)).filter isFailureNotice).length
      = 1 := by
  constructor
  · rw [jobEvents]
    simp only [List.filter_append, pre_no_archive, List.nil_append]
    simp [isArchiveEvent]
  · rw [jobEvents]
    simp only [List.filter_append, pre_no_failure, List.nil_append]
    simp [isFailureNotice]

theorem pack_length_le (base : String) (maxSize : Nat) (files : List PngFile)
    (h : files ≠ []) : (pack_into_zips base maxSize files).length ≤ files.length := by
  have hne := pack_parts_ne base maxSize files h
  have hjoin := pack_join base maxSize files
  calc (pack_into_zips base maxSize files).length
      = ((pack_into_zips base maxSize files).map ZipPart.members).length := by simp
    _ ≤ ((pack_into_zips base maxSize files).map ZipPart.members).flatten.length := by
        apply length_le_flatten_length
        intro l hl
        obtain ⟨z, hz, hzz⟩ := List.mem_map.mp hl
        rw [← hzz]
        exact hne z hz
    _ = files.length := by rw [hjoin]

theorem render_calls_snd (n : Nat) : ∀ c ∈ (renderPages n).2, c.2 = n := by
  intro c hc
  rw [renderPages_snd] at hc
  obtain ⟨a, -, ha⟩ := List.mem_filterMap.mp hc
  unfold progressCond at ha
  by_cases h : a % PROGRESS_EVERY = 0 ∨ a = n
  · rw [if_pos h] at ha
    cases ha
    rfl
  · rw [if_neg h] at ha
    cases ha

theorem render_calls_mem (n p : Nat) :
    (p, n) ∈ (renderPages n).2 ↔ 1 ≤ p ∧ p ≤ n ∧ (p % PROGRESS_EVERY = 0 ∨ p = n) := by
  rw [renderPages_snd, List.mem_filterMap]
  constructor
  · rintro ⟨a, ha, hfa⟩
    unfold progressCond at hfa
    by_cases h : a % PROGRESS_EVERY = 0 ∨ a = n
    · rw [if_pos h] at hfa
      have hap : a = p := congrArg Prod.fst (Option.some.inj hfa)
      subst hap
      have hm := (mem_pageNums n a).mp ha
      exact ⟨hm.1, hm.2, h⟩
    · rw [if_neg h] at hfa
      cases hfa
  · rintro ⟨h1, h2, h3⟩
    refine ⟨p, (mem_pageNums n p).mpr ⟨h1, h2⟩, ?_⟩
    unfold progressCond
    rw [if_pos h3]

/-- C1 (corrected): as literally stated the claim is false, because the loop
guard of `pack_into_zips` tests `current_size > 0` rather than part
non-emptiness. A zero-size file is admitted into the open part without
raising `current_size` above zero, so a following file larger than
`max_size` is appended to the same part: the produced part exceeds the bound
with two members, refuting the exactly-one-member exception clause. Here,
with bound 45 and sizes 0 and 46, the single produced part has cumulative
size 46 > 45 and two members. -/
theorem pack_into_zips_zero_size_counterexample :
    pack_into_zips "doc" 45 [⟨"a.png", 0⟩, ⟨"b.png", 46⟩]
        = [⟨"doc.zip", [⟨"a.png", 0⟩, ⟨"b.png", 46⟩], 46⟩]
      ∧ 45 < sumSize [⟨"a.png", 0⟩, ⟨"b.png", 46⟩]
      ∧ ([⟨"a.png", 0⟩, ⟨"b.png", 46⟩] : List PngFile).length ≠ 1 := by
  decide

/-- C1 (amended): for every input list of files in which every file has
positive size and every bound max_size > 0, each archive part produced by
`pack_into_zips` has cumulative member size at most max_size, except a part
containing exactly one member whose own size already exceeds max_size; such
an oversized file is placed alone in its own part rather than rejected. -/
theorem pack_into_zips_size_bound (base : String) (maxSize : Nat) (files : List PngFile)
    (hpos : ∀ f ∈ files, 0 < f.size) (_hmax : 0 < maxSize) :
    ∀ z ∈ pack_into_zips base maxSize files, goodPart maxSize z.members :=
  fun z hz => pack_parts_good base maxSize files hpos z hz

/-- Witness for C1: with bound 45 and file sizes 10 and 50, the oversized
50-byte file ends up alone in part 2, which satisfies the size
discipline through its singleton exception. -/
theorem pack_into_zips_size_bound_witness :
    goodPart 45 (ZipPart.members ⟨"doc_part2.zip", [⟨"c.png", 50⟩], 50⟩) :=
  pack_into_zips_size_bound "doc" 45 [⟨"a.png", 10⟩, ⟨"c.png", 50⟩] (by decide) (by decide)
    ⟨"doc_part2.zip", [⟨"c.png", 50⟩], 50⟩ (by decide)

/-- C2 (confirmed): for every non-empty input list, concatenating the member
lists of the parts returned by `pack_into_zips`, in part order, yields
exactly the original input sequence (every input file appears exactly once,
in original order), and the part names are numbered contiguously from 1 with
no gaps (`base_part1.zip` .. `base_partN.zip`, collapsing to the unnumbered
`base.zip` when there is a single part). -/
theorem pack_into_zips_order_and_numbering (base : String) (maxSize : Nat)
    (files : List PngFile) (_hne : files ≠ []) :
    ((pack_into_zips base maxSize files).map ZipPart.members).flatten = files ∧
    (pack_into_zips base maxSize files).map ZipPart.name
      = zipNames base (pack_into_zips base maxSize files).length :=
  ⟨pack_join base maxSize files, pack_names base maxSize files⟩

/-- Witness for C2: two 10-byte files with bound 15 split into two parts
covering the input in order, named part1 and part2. -/
theorem pack_into_zips_order_and_numbering_witness :
    ((pack_into_zips "doc" 15 [⟨"p1", 10⟩, ⟨"p2", 10⟩]).map ZipPart.members).flatten
        = [⟨"p1", 10⟩, ⟨"p2", 10⟩] ∧
    (pack_into_zips "doc" 15 [⟨"p1", 10⟩, ⟨"p2", 10⟩]).map ZipPart.name
        = zipNames "doc" (pack_into_zips "doc" 15 [⟨"p1", 10⟩, ⟨"p2", 10⟩]).length :=
  pack_into_zips_order_and_numbering "doc" 15 [⟨"p1", 10⟩, ⟨"p2", 10⟩] (by decide)

/-- C3 (corrected): the claim is false: `pack_into_zips` has no emptiness
check and never raises on an empty input list. It unconditionally opens
part 1 before the loop, the loop body never runs, and the single empty part
is then renamed to `base.zip` and returned: the call yields exactly one
archive containing zero members instead of failing. -/
theorem pack_into_zips_empty_counterexample :
    pack_into_zips "doc" 45 [] = [⟨"doc.zip", [], 0⟩] := by decide

/-- C3 (amended): when `pack_into_zips` is invoked with an empty input file
list it does not raise; it returns exactly one archive, named `base.zip`,
containing zero members. -/
theorem pack_into_zips_empty (base : String) (maxSize : Nat) :
    pack_into_zips base maxSize [] = [⟨base ++ ".zip", [], 0⟩] := rfl

/-- C4 (corrected): the claim is false in its completion clause. The
reporter loop only reaches the cadence-or-completed test under the guard
`current < total`, so at the moment rendering has just completed
(`current = total`) no notification is emitted, even when the cadence gap is
met: with last notified 100 and 120 of 120 pages done, the claim mandates a
forced final notification but the code sends nothing. The
`current == total` disjunct in the code is unreachable. -/
theorem reporter_no_forced_final_counterexample : reporterSends 100 120 120 = false := by
  decide

/-- C4 (amended): a notification is emitted in the reporter loop exactly
when total > 0, last_notified < pages_done < pages_total, and
pages_done - last_notified is at least the cadence; in particular no final
notification is forced when rendering has completed. -/
theorem reporterSends_iff (l c t : Nat) :
    reporterSends l c t = true ↔ 0 < t ∧ l < c ∧ c < t ∧ PROGRESS_EVERY ≤ c - l := by
  simp only [reporterSends, PROGRESS_EVERY, Bool.and_eq_true, Bool.or_eq_true,
    decide_eq_true_eq]
  omega

/-- C5 (confirmed): during rendering the progress callback is invoked for
page p exactly when p is a positive page of the document and
p mod PROGRESS_EVERY = 0 or p equals the page count, and every invocation
passes the pair (current_page, total_pages). -/
theorem render_progress_callback_spec (n : Nat) :
    (∀ c ∈ (renderPages n).2, c.2 = n) ∧
    (∀ p : Nat, (p, n) ∈ (renderPages n).2 ↔
      1 ≤ p ∧ p ≤ n ∧ (p % PROGRESS_EVERY = 0 ∨ p = n)) :=
  ⟨render_calls_snd n, fun p => render_calls_mem n p⟩

/-- Witness for C5: in a 120-page document the callback fires at the final
page 120 even though 120 is not a multiple of 50. -/
theorem render_progress_callback_spec_witness :
    ((120 : Nat), (120 : Nat)) ∈ (renderPages 120).2 :=
  ((render_progress_callback_spec 120).2 120).mpr (by decide)

/-- C6 (corrected): the claim is false as stated, because Python `{:04d}`
zero-pads to a minimum width of four rather than a fixed width: from page
10000 on, the file names grow to five digits and lexicographic order
diverges from page order. Page 9999 precedes page 10000, yet
`page_10000.png` sorts strictly before `page_9999.png`. -/
theorem pageFileName_order_counterexample :
    9999 < 10000 ∧ pageFileName 10000 < pageFileName 9999 := by
  constructor
  · decide
  · rw [String.lt_iff_toList_lt]
    decide

/-- C6 (amended): for every document with 1 ≤ N ≤ 9999 pages,
`render_pages_to_files` produces exactly N image files and returns their
paths in page order; file names zero-pad the 1-based page index to width
four (page_0001.png), so lexicographic filename order equals page order for
all documents of at most 9999 pages. -/
theorem render_pages_files_sorted (n : Nat) (h1 : 1 ≤ n) (h9 : n ≤ 9999) :
    render_pages_to_files n = Except.ok ((pageNums n).map pageFileName) ∧
    ((pageNums n).map pageFileName).length = n ∧
    List.Pairwise (fun a b => a < b) ((pageNums n).map pageFileName) := by
  have hlen : ((pageNums n).map pageFileName).length = n := by simp [pageNums]
  refine ⟨?_, hlen, ?_⟩
  · rw [render_pages_to_files]
    rw [renderPages_fst]
    rw [if_neg ?_]
    intro hemp
    rw [List.isEmpty_iff] at hemp
    rw [hemp] at hlen
    simp at hlen
    omega
  · rw [List.pairwise_iff_getElem]
    intro i j hi hj hij
    simp only [List.length_map, pageNums, List.length_range] at hi hj
    simp only [pageNums, List.getElem_map, List.getElem_range]
    exact pageFileName_lt (by omega) (by omega)

/-- Witness for C6: a three-page document yields the three file names in
sorted page order. -/
theorem render_pages_files_sorted_witness :
    render_pages_to_files 3 = Except.ok ((pageNums 3).map pageFileName) ∧
    ((pageNums 3).map pageFileName).length = 3 ∧
    List.Pairwise (fun a b => a < b) ((pageNums 3).map pageFileName) :=
  render_pages_files_sorted 3 (by decide) (by decide)

/-- C7 (confirmed): if `pack_into_zips` produces exactly one part, the
returned archive is named `base.zip` with no part suffix (the part1 name is
renamed away); if it produces two or more parts, part i is named
`base_parti.zip` for i = 1..n with no renaming. -/
theorem pack_naming_single_multi (base : String) (maxSize : Nat) (files : List PngFile) :
    ((pack_into_zips base maxSize files).length = 1 →
      (pack_into_zips base maxSize files).map ZipPart.name = [base ++ ".zip"]) ∧
    (2 ≤ (pack_into_zips base maxSize files).length →
      (pack_into_zips base maxSize files).map ZipPart.name
        = (List.range (pack_into_zips base maxSize files).length).map
            (fun i => partName base (i + 1))) := by
  have h := pack_names base maxSize files
  constructor
  · intro h1
    rw [h, h1, zipNames, if_pos rfl]
  · intro h2
    rw [h, zipNames, if_neg (by omega)]

/-- Witness for C7: a single 10-byte file with bound 45 yields one part,
renamed to the unsuffixed base name. -/
theorem pack_naming_single_multi_witness :
    (pack_into_zips "doc" 45 [⟨"a.png", 10⟩]).map ZipPart.name = ["doc" ++ ".zip"] :=
  (pack_naming_single_multi "doc" 45 [⟨"a.png", 10⟩]).1 (by decide)

/-- C8 (confirmed): on a zero-page document `render_pages_to_files` raises
the empty-document error (`ValueError("The PDF file has no pages")`, the
realization of EmptyDocumentError), zero image files are produced, and the
job consequently delivers zero archives. -/
theorem empty_document_zero_output (base : String) (fileSize : String → Nat)
    (progress : List (Nat × Nat)) :
    render_pages_to_files 0 = Except.error "The PDF file has no pages" ∧
    (renderPages 0).1 = [] ∧
    (handle_pdf base 0 fileSize progress).filter isArchiveEvent = [] := by
  refine ⟨rfl, rfl, ?_⟩
  show (jobEvents progress (Except.error "The PDF file has no pages")
      (Except.error "The PDF file has no pages")).filter isArchiveEvent = []
  exact (jobEvents_render_error progress _ _).1

/-- C9 (confirmed): whenever rendering or packing raises, the job delivers
zero archive files (no partial delivery, regardless of the progress messages
already sent) and surfaces exactly one failure notice. -/
theorem job_failure_no_partial_delivery (progress : List (Nat × Nat))
    (rr : Except String (List PngFile)) (pr : Except String (List ZipPart))
    (h : failed rr = true ∨ failed pr = true) :
    (jobEvents progress rr pr).filter isArchiveEvent = [] ∧
    ((jobEvents progress rr pr).filter isFailureNotice).length = 1 := by
  rcases rr with e | pngs
  · exact jobEvents_render_error progress e pr
  · rcases pr with e | zips
    · exact jobEvents_pack_error progress pngs e
    · rcases h with h | h <;> simp [failed] at h

/-- Witness for C9: a render failure after one progress message yields no
archive and exactly one failure notice. -/
theorem job_failure_no_partial_delivery_witness :
    (jobEvents [(50, 120)] (Except.error "bad xref") (Except.error "bad xref")).filter
        isArchiveEvent = [] ∧
    ((jobEvents [(50, 120)] (Except.error "bad xref")
        (Except.error "bad xref")).filter isFailureNotice).length = 1 :=
  job_failure_no_partial_delivery [(50, 120)] (Except.error "bad xref")
    (Except.error "bad xref") (Or.inl rfl)

/-- C10 (confirmed): for every non-empty input list, every archive part
returned by `pack_into_zips` contains at least one member file, so the
number of parts is at most the number of input files. -/
theorem pack_no_empty_parts (base : String) (maxSize : Nat) (files : List PngFile)
    (h : files ≠ []) :
    (∀ z ∈ pack_into_zips base maxSize files, z.members ≠ []) ∧
    (pack_into_zips base maxSize files).length ≤ files.length :=
  ⟨pack_parts_ne base maxSize files h, pack_length_le base maxSize files h⟩

/-- Witness for C10: one input file yields at most one part. -/
theorem pack_no_empty_parts_witness :
    (pack_into_zips "doc" 45 [⟨"a.png", 10⟩]).length
      ≤ ([⟨"a.png", 10⟩] : List PngFile).length :=
  (pack_no_empty_parts "doc" 45 [⟨"a.png", 10⟩] (by decide)).2
